import Mathlib

/-!
Verification development for the core of the Notify ntfy daemon
(src/ntfy-daemon). Rust code is shallowly embedded: pure fragments become
Lean functions, actor handlers become explicit state-passing functions,
fallible code returns Except. Machine integers (u64) are modelled as Nat;
none of the verified paths exercise overflow.
-/

namespace Notify

/-! ## Data model (src/ntfy-daemon/src/models.rs) -/

/-- Action variants of models::Action (serde-tagged on the field named action). -/
inductive Action where
  | view (label : String) (url : String) (clear : Bool)
  | http (label : String) (url : String) (method : String)
      (headers : List (String × String)) (body : String) (clear : Bool)
  | broadcast (label : String) (intent : Option String)
      (extras : List (String × String)) (clear : Bool)
deriving DecidableEq, Repr

/-- models::Attachment. The url is kept as its textual form. -/
structure Attachment where
  name : String
  url : String
  atype : Option String
  size : Option Nat
  expires : Option Nat
deriving DecidableEq, Repr

/-- The message record handled by the Subscription actor
(subscription.rs names the type ReceivedMessage, which is not present under
models.rs in this tree; per the spec it is the Message object of the data
model, whose consulted fields include id, topic and time). Fields follow
models::Message, plus the id field the spec requires for storage keying. -/
structure Msg where
  id : String
  topic : String
  message : Option String
  time : Nat
  title : Option String
  tags : List String
  priority : Option Int
  attachment : Option Attachment
  icon : Option String
  filename : Option String
  delay : Option Nat
  email : Option String
  call : Option String
  actions : List Action
deriving DecidableEq, Repr

/-- models::MinMessage: the tolerant parse of id, topic, time only. -/
structure MinMessage where
  id : String
  topic : String
  time : Nat
deriving DecidableEq, Repr

/-- models::Subscription: the persistent per-topic model. -/
structure Subscription where
  server : String
  topic : String
  display_name : String
  muted : Bool
  archived : Bool
  reserved : Bool
  symbolic_icon : Option String
  read_until : Nat
deriving DecidableEq, Repr

/-- models::Notification, the payload handed to the notification sink. -/
structure Notification where
  title : String
  body : String
  actions : List Action
deriving DecidableEq, Repr

/-- listener.rs ConnectionState. Delay is in whole seconds; the error payload
is abstracted to its presence. -/
inductive ConnectionState where
  | unitialized
  | connected
  | reconnecting (retry_count : Nat) (delay : Nat) (hasError : Bool)
deriving DecidableEq, Repr

/-- listener.rs ListenerEvent. -/
inductive ListenerEvent where
  | message (m : Msg)
  | connectionStateChanged (s : ConnectionState)
deriving DecidableEq, Repr

/-- The ntfy-daemon Error enum (lib.rs). Library-supplied error payloads
(serde and rusqlite causes) are abstracted to a numeric code. -/
inductive Error where
  | InvalidTopic (topic : String)
  | InvalidServer
  | DuplicateMessage
  | InvalidMinMessage (raw : String)
  | InvalidMessage (raw : String)
  | Db (code : Nat)
  | SubscriptionNotFound (context : String)
deriving DecidableEq, Repr

deriving instance DecidableEq for Except

/-- True when an Except value is a success. -/
def isOkE {ε α : Type} : Except ε α → Bool
  | .ok _ => true
  | .error _ => false

/-! ## Topic validation (models.rs, validate_topic)

The source compiles the regex [caret][\w\-]{1,64}$ with the Rust regex
crate, whose \w is the Unicode word class \p{Word} (Alphabetic, marks,
decimal digits, connector punctuation, join controls), not the ASCII class
[A-Za-z0-9_]. The class is embedded here restricted to code points at or
below U+00FF: within Latin-1, \p{Word} is exactly ASCII alphanumerics, the
underscore, and the letters U+00AA, U+00B5, U+00BA, U+00C0 to U+00D6,
U+00D8 to U+00F6, U+00F8 to U+00FF. Code points above U+00FF are not
modelled (the development never evaluates the predicate there). -/

/-- Word character per the regex crate's \w (Unicode \p{Word}), restricted
to the Latin-1 range as described above. -/
def isLatin1WordChar (c : Char) : Bool :=
  c.isAlphanum || c = '_' ||
  c.toNat = 0xAA || c.toNat = 0xB5 || c.toNat = 0xBA ||
  (0xC0 ≤ c.toNat && c.toNat ≤ 0xD6) ||
  (0xD8 ≤ c.toNat && c.toNat ≤ 0xF6) ||
  (0xF8 ≤ c.toNat && c.toNat ≤ 0xFF)

/-- Whether a whole string matches the source regex [caret][\w\-]{1,64}$:
between 1 and 64 characters, each a word character or a hyphen. -/
def topicReMatch (s : String) : Bool :=
  decide (1 ≤ s.length) && decide (s.length ≤ 64) &&
  s.data.all (fun c => isLatin1WordChar c || c = '-')

/-- models::validate_topic. -/
def validate_topic (topic : String) : Except Error String :=
  if topicReMatch topic then .ok topic else .error (.InvalidTopic topic)

/-- The ASCII regex stated by the spec: [caret][A-Za-z0-9_\-]{1,64}$
(ASCII letters, digits, underscore and hyphen, length 1 to 64). This
definition follows the claim's words and is compared against
validate_topic, which follows the source. -/
def specTopicReMatch (s : String) : Bool :=
  decide (1 ≤ s.length) && decide (s.length ≤ 64) &&
  s.data.all (fun c => c.isAlphanum || c = '_' || c = '-')

/-! ## Retry policy (src/ntfy-daemon/src/retry.rs)

Durations are modelled in whole seconds (the listener configures whole
second bounds: min 1 s, max 300 s). The random draw of
rand::thread_rng().gen_range(min..=secs) is modelled by a sample argument
constrained to that inclusive range. -/

/-- retry::WaitExponentialRandom state (durations in seconds). -/
structure WaitExponentialRandom where
  min : Nat
  max : Nat
  i : Nat
  multiplier : Nat
deriving DecidableEq, Repr

/-- Upper bound of the sampling range in next_delay:
(1 shifted left by i) * multiplier, i.e. 2 ^ i * multiplier. -/
def sampleUpperBound (w : WaitExponentialRandom) : Nat :=
  2 ^ w.i * w.multiplier

/-- WaitExponentialRandom::next_delay, with the uniform draw supplied as
sample (gen_range requires min ≤ sample ≤ sampleUpperBound). The drawn
duration is clamped as cmp::min(cmp::max(dur, min), max). -/
def next_delay (w : WaitExponentialRandom) (sample : Nat) : Nat :=
  min (max sample w.min) w.max

/-- WaitExponentialRandom::wait: sleeps next_delay() and increments i.
Returns the slept delay together with the new state. -/
def wait (w : WaitExponentialRandom) (sample : Nat) : Nat × WaitExponentialRandom :=
  (next_delay w sample, { w with i := w.i + 1 })

/-! ## Listener inner loop (src/ntfy-daemon/src/listener.rs)

ConnectionHandler::recv_and_forward_loop iterates over the NDJSON lines of
the response body. A line is embedded by its raw text together with its two
serde parse outcomes (serde_json is an external library, so parsing is an
input of the model): the tolerant MinMessage parse and the full ServerEvent
parse. -/

/-- listener::ServerEvent, the serde-tagged wire union. -/
inductive ServerEvent where
  | openEv (id : String) (time : Nat) (expires : Option Nat) (topic : String)
  | message (id : String) (expires : Option Nat) (m : Msg)
  | keepAlive (id : String) (time : Nat) (expires : Option Nat) (topic : String)
deriving DecidableEq, Repr

/-- One NDJSON line as seen by the inner loop: the raw text and its serde
parse outcomes. -/
structure Line where
  raw : String
  parseMin : Option MinMessage
  parseEvent : Option ServerEvent
deriving DecidableEq, Repr

/-- The body of the inner loop for a single line, threading the since
cursor. Mirrors recv_and_forward_loop: the MinMessage parse failure aborts
with InvalidMinMessage before the cursor update; when MinMessage parses,
since is assigned min_msg.time.max(since) before attempting the full
ServerEvent parse, so the cursor keeps its new value even when the full
parse then fails with InvalidMessage. A message event yields a forwarded
message; open and keepalive yield nothing. -/
def processLine (since : Nat) (l : Line) : Nat × Except Error (Option Msg) :=
  match l.parseMin with
  | none => (since, .error (.InvalidMinMessage l.raw))
  | some mm =>
    let since2 := Nat.max mm.time since
    match l.parseEvent with
    | none => (since2, .error (.InvalidMessage l.raw))
    | some (.message _ _ m) => (since2, .ok (some m))
    | some (.keepAlive _ _ _ _) => (since2, .ok none)
    | some (.openEv _ _ _ _) => (since2, .ok none)

/-- ConnectionHandler::recv_and_forward_loop over a finite list of body
lines: returns the final since cursor, the messages forwarded on the event
channel, and the error that aborted the loop (none on clean EOF). -/
def recvAndForward (since : Nat) (lines : List Line) :
    Nat × List Msg × Option Error :=
  match lines with
  | [] => (since, [], none)
  | l :: ls =>
    match processLine since l with
    | (s2, .error e) => (s2, [], some e)
    | (s2, .ok none) => recvAndForward s2 ls
    | (s2, .ok (some m)) =>
      let r := recvAndForward s2 ls
      (r.1, m :: r.2.1, r.2.2)

/-- ConnectionHandler::run_supervised_loop as seen by the since cursor: each
reconnect reruns recv_and_forward_loop on the same handler, whose config
keeps the since value reached by the previous connection. -/
def runSupervisedSince (since : Nat) : List (List Line) → Nat
  | [] => since
  | conn :: rest => runSupervisedSince (recvAndForward since conn).1 rest

/-! ## Credentials store (src/ntfy-daemon/src/credentials.rs)

The in-memory map (the source of truth for get and list_all) is embedded as
an association list keyed by server. The keyring is an external adapter;
its create_item call in insert is modelled as always succeeding (as the
NullableKeyring does), insert having already bailed on the
one-account-per-server check before touching it. -/

/-- credentials::Credential. -/
structure Credential where
  username : String
  password : String
deriving DecidableEq, Repr

/-- Error of Credentials::insert (anyhow bail: only one account per server). -/
inductive CredError where
  | singleAccountPerServer
deriving DecidableEq, Repr

/-- The process-local cached map of Credentials, keyed by server. -/
abbrev CredStore : Type := List (String × Credential)

/-- Credentials::get: lookup of the cached map. -/
def CredStore.get (store : CredStore) (server : String) : Option Credential :=
  (store.find? (fun p => p.1 = server)).map (·.2)

/-- HashMap::insert on the cached map: replace the entry for the server if
present, append otherwise. -/
def CredStore.put (store : CredStore) (server : String) (c : Credential) : CredStore :=
  if store.any (fun p => p.1 = server) then
    store.map (fun p => if p.1 = server then (p.1, c) else p)
  else store ++ [(server, c)]

/-- Credentials::insert: bail when a credential for the server exists with a
different username, otherwise store (idempotent upsert via the keyring item
replace flag and the map insert). The bail happens before any modification,
so the returned store equals the input store exactly when an error is
returned. Result: (store after the call, error if any). -/
def CredStore.insert (store : CredStore) (server username password : String) :
    CredStore × Option CredError :=
  match store.get server with
  | some c =>
    if c.username ≠ username then (store, some .singleAccountPerServer)
    else (store.put server ⟨username, password⟩, none)
  | none => (store.put server ⟨username, password⟩, none)

/-! ## Message repository (src/ntfy-daemon/src/message_repo/mod.rs)

The SQLite store is embedded relationally. The migration script that fixes
the schema is not under src; per the spec, messages are stored as JSON text
with a UNIQUE (server, id) key extracted via a JSON path, and the
subscription table is keyed by (server, topic). A stored JSON blob is
characterized by exactly what the repository's SQL and the actor's parsing
consult: the extracted id, topic and time fields, and the outcome of the
full serde parse back into a message. Following SQLite semantics, a NULL
extracted id never violates the UNIQUE constraint. -/

/-- A stored message blob (the data column). -/
structure Blob where
  idField : Option String
  topicField : Option String
  timeField : Option Nat
  parse : Option Msg
deriving DecidableEq, Repr

/-- The blob obtained by serde-serialising a message, as handle_msg_event
does before insert_message: the JSON path extractions recover the fields and
the round-trip parse recovers the message. -/
def Blob.ofMsg (m : Msg) : Blob :=
  ⟨some m.id, some m.topic, some m.time, some m⟩

/-- Row of the server table. -/
structure ServerRow where
  id : Nat
  endpoint : String
deriving DecidableEq, Repr

/-- Row of the message table. -/
structure MsgRow where
  server : Nat
  data : Blob
deriving DecidableEq, Repr

/-- Row of the subscription table. -/
structure SubRow where
  server : Nat
  topic : String
  display_name : String
  reserved : Bool
  muted : Bool
  archived : Bool
  symbolic_icon : Option String
  read_until : Nat
deriving DecidableEq, Repr

/-- The database state. -/
structure Db where
  servers : List ServerRow
  subscriptions : List SubRow
  messages : List MsgRow
deriving DecidableEq, Repr

/-- Lookup of a server id by endpoint (the SELECT of get_or_insert_server). -/
def Db.serverId (db : Db) (endpoint : String) : Option Nat :=
  (db.servers.find? (fun r => r.endpoint = endpoint)).map (·.id)

/-- A fresh rowid for the server table (last_insert_rowid after the INSERT). -/
def Db.freshServerId (db : Db) : Nat :=
  (db.servers.map (·.id)).foldr Nat.max 0 + 1

/-- Db::get_or_insert_server: look the endpoint up, inserting a row if
absent; returns the id and the possibly-extended database. -/
def Db.get_or_insert_server (db : Db) (endpoint : String) : Nat × Db :=
  match db.serverId endpoint with
  | some i => (i, db)
  | none =>
    let i := db.freshServerId
    (i, { db with servers := db.servers ++ [⟨i, endpoint⟩] })

/-- Whether the message table already holds a row for this server id whose
extracted id equals the given one (the UNIQUE (server, id) check). -/
def Db.hasMessageId (db : Db) (sid : Nat) (mid : String) : Bool :=
  db.messages.any (fun r => r.server = sid && r.data.idField = some mid)

/-- Db::insert_message: resolve the server id, then INSERT the blob; a
UNIQUE-constraint violation on the extracted (server, id) key becomes
DuplicateMessage. A blob without an id field cannot collide (SQLite treats
NULLs in a UNIQUE index as distinct). -/
def Db.insert_message (db : Db) (server : String) (blob : Blob) : Except Error Db :=
  let sd := db.get_or_insert_server server
  match blob.idField with
  | some mid =>
    if sd.2.hasMessageId sd.1 mid then .error .DuplicateMessage
    else .ok { sd.2 with messages := sd.2.messages ++ [⟨sd.1, blob⟩] }
  | none => .ok { sd.2 with messages := sd.2.messages ++ [⟨sd.1, blob⟩] }

/-- The WHERE and JOIN condition of Db::list_messages for one message row:
some server row has the requested endpoint, some subscription row joins it
on the server id, and the message row joins that subscription on server id
and topic, with the requested topic and an extracted time at least since
(a NULL extracted time fails the comparison). -/
def MsgRow.inListing (r : MsgRow) (db : Db) (server topic : String) (since : Nat) : Bool :=
  db.servers.any fun s =>
    s.endpoint = server &&
    db.subscriptions.any fun sub =>
      sub.server = s.id && r.server = sub.server &&
      r.data.topicField = some sub.topic &&
      r.data.topicField = some topic &&
      (match r.data.timeField with
       | some t => since ≤ t
       | none => false)

/-- Sort key of the ORDER BY clause: the extracted time. -/
def MsgRow.timeKey (r : MsgRow) : Nat :=
  r.data.timeField.getD 0

/-- The ORDER BY comparison: ascending extracted time. -/
def timeLE (a b : MsgRow) : Prop :=
  a.timeKey ≤ b.timeKey

instance : DecidableRel timeLE := fun a b =>
  inferInstanceAs (Decidable (a.timeKey ≤ b.timeKey))

instance : IsTotal MsgRow timeLE :=
  ⟨fun a b => Nat.le_total a.timeKey b.timeKey⟩

instance : IsTrans MsgRow timeLE :=
  ⟨fun _ _ _ hab hbc => Nat.le_trans hab hbc⟩

/-- Sort by ascending extracted time (the ORDER BY of list_messages; order
among rows of equal time is unspecified by SQLite, insertion sort is one
admissible realisation). -/
def sortByTimeKey (l : List MsgRow) : List MsgRow :=
  l.insertionSort timeLE

/-- Db::list_messages: data column of the rows satisfying the join and
filter, ordered by ascending extracted time. -/
def Db.list_messages (db : Db) (server topic : String) (since : Nat) : List Blob :=
  (sortByTimeKey (db.messages.filter
    (fun r => r.inListing db server topic since))).map (·.data)

/-- Db::update_subscription: resolve the server id, then UPDATE the
subscription row matching (server, topic), setting exactly the columns of
the SET clause: display_name, reserved, muted, archived, read_until (the
symbolic_icon column is not in the SET clause and keeps its stored value).
When no row matches, SubscriptionNotFound is returned. -/
def Db.update_subscription (db : Db) (sub : Subscription) : Db × Except Error Unit :=
  let sd := db.get_or_insert_server sub.server
  if sd.2.subscriptions.any (fun r => r.server = sd.1 && r.topic = sub.topic) then
    ({ sd.2 with subscriptions := sd.2.subscriptions.map (fun r =>
        if r.server = sd.1 && r.topic = sub.topic then
          { r with
            display_name := sub.display_name
            reserved := sub.reserved
            muted := sub.muted
            archived := sub.archived
            read_until := sub.read_until }
        else r) },
     .ok ())
  else (sd.2, .error (.SubscriptionNotFound "updating subscription"))

/-! ## Subscription actor (src/ntfy-daemon/src/subscription.rs)

The emoji map is loaded from an embedded JSON asset that is not part of the
sources; display rendering is therefore parameterised by the tag-to-emoji
lookup. -/

/-- Message::extend_with_emojis: append the emoji of each resolvable tag. -/
def extendWithEmojis (emojiMap : String → Option String) (m : Msg) (text : String) : String :=
  m.tags.foldl (fun acc t =>
    match emojiMap t with
    | some e => acc ++ e
    | none => acc) text

/-- Message::display_title: present only when a title is, prefixed by the
resolved tag emojis and a separating space when any emoji resolved. -/
def Msg.display_title (emojiMap : String → Option String) (m : Msg) : Option String :=
  m.title.map (fun title =>
    let title_text := extendWithEmojis emojiMap m ""
    let title_text := if title_text ≠ "" then title_text ++ " " else title_text
    title_text ++ title)

/-- Message::display_message: present only when a message body is, prefixed
by the tag emojis exactly when there is no title. -/
def Msg.display_message (emojiMap : String → Option String) (m : Msg) : Option String :=
  m.message.map (fun message =>
    let out := if m.title.isNone then extendWithEmojis emojiMap m "" else ""
    let out := if out ≠ "" then out ++ " " else out
    out ++ message)

/-- Message::notification_title: display_title, else the subscription's
display_name when non-empty, else the message topic. -/
def Msg.notification_title (emojiMap : String → Option String) (m : Msg)
    (subscription : Subscription) : String :=
  ((m.display_title emojiMap).or
    (if subscription.display_name = "" then none
     else some subscription.display_name)).getD m.topic

/-- The Notification built by handle_msg_event when the model is not muted. -/
def buildNotification (emojiMap : String → Option String) (model : Subscription)
    (msg : Msg) : Notification :=
  { title := msg.notification_title emojiMap model
    body := (msg.display_message emojiMap).getD ""
    actions := msg.actions }

/-- Outputs of one handle_msg_event call: the database after the insert
attempt, the notifications handed to the sink, and the events sent on the
observer broadcast channel. -/
structure MsgOutputs where
  db : Db
  notifications : List Notification
  fanout : List ListenerEvent
deriving DecidableEq, Repr

/-- The already_stored match of handle_msg_event on the insert_message
result: true exactly for Err(DuplicateMessage); any other error and the Ok
case give false. -/
def alreadyStoredOf (r : Except Error Db) : Bool :=
  match r with
  | .error .DuplicateMessage => true
  | _ => false

/-- SubscriptionActor::handle_msg_event with the insert_message outcome
supplied explicitly (the database call may fail for reasons outside this
model, such as an I/O error mapped to Error::Db). When already_stored, the
work stops there; otherwise a notification is sent unless the model is
muted, and the message is fanned out to observers. -/
def handleMsgEventWith (emojiMap : String → Option String) (ins : Except Error Db)
    (db : Db) (model : Subscription) (msg : Msg) : MsgOutputs :=
  let db2 := match ins with
    | .ok d => d
    | .error _ => db
  if alreadyStoredOf ins then ⟨db2, [], []⟩
  else
    let notifs :=
      if !model.muted then [buildNotification emojiMap model msg] else []
    ⟨db2, notifs, [ListenerEvent.message msg]⟩

/-- SubscriptionActor::handle_msg_event against the embedded database: the
message is serialised and handed to insert_message, and the outcome drives
the notification and fan-out. -/
def handle_msg_event (emojiMap : String → Option String) (db : Db)
    (model : Subscription) (msg : Msg) : MsgOutputs :=
  handleMsgEventWith emojiMap (db.insert_message model.server (Blob.ofMsg msg)) db model msg

/-- SubscriptionCommand::Attach handling: the replay vector is the stored
messages of the model's (server, topic) with since 0, each parsed back with
serde (rows failing to parse are dropped by the filter_map), wrapped as
Message events, followed by one ConnectionStateChanged carrying the state
just queried from the Listener. -/
def attachReplay (db : Db) (model : Subscription) (state : ConnectionState) :
    List ListenerEvent :=
  ((db.list_messages model.server model.topic 0).filterMap (·.parse)).map
    ListenerEvent.message
  ++ [ListenerEvent.connectionStateChanged state]

/-- The merge of SubscriptionCommand::UpdateInfo: the incoming model with
server and topic overwritten from the current model. -/
def mergeModels (current new : Subscription) : Subscription :=
  { new with server := current.server, topic := current.topic }

/-- Result of one UpdateInfo command: database, in-memory model, reply. -/
structure UpdateInfoResult where
  db : Db
  model : Subscription
  reply : Except Error Unit
deriving DecidableEq, Repr

/-- SubscriptionCommand::UpdateInfo handling: merge, persist via
update_subscription, and adopt the merged model in memory only when the
update succeeded. -/
def handleUpdateInfo (db : Db) (current new : Subscription) : UpdateInfoResult :=
  let merged := mergeModels current new
  let res := db.update_subscription merged
  match res.2 with
  | .ok _ => ⟨res.1, merged, .ok ()⟩
  | .error e => ⟨res.1, current, .error e⟩

/-! ## Ntfy coordinator (src/ntfy-daemon/src/ntfy.rs)

The AddAccount arm of NtfyActor::run calls env.credentials.insert with the
given server, username and password and replies with its result; the arm
contains no HTTP call and no RefreshAll. The result record makes the absent
side effects observable: the HTTP requests issued and whether a RefreshAll
was performed. -/

/-- An HTTP request issued by the coordinator (method GET, URL, basic auth). -/
structure ProbeRequest where
  url : String
  basicAuth : Option (String × String)
deriving DecidableEq, Repr

/-- Errors an AddAccount command can reply with: the credential store's
one-account-per-server error, or (in the spec-described flow only) a failed
auth probe with its HTTP status (0 for a network error). -/
inductive AddAccountError where
  | singleAccountPerServer
  | probeFailed (status : Nat)
deriving DecidableEq, Repr

/-- Observable outcome of one AddAccount command: the credential store after
the command, the error replied (if any), the HTTP requests issued while
handling it, and whether a RefreshAll was performed. -/
structure AddAccountResult where
  store : CredStore
  reply : Option AddAccountError
  requests : List ProbeRequest
  refreshed : Bool
deriving DecidableEq, Repr

/-- NtfyMessage::AddAccount handling in NtfyActor::run: insert into the
credential store and reply with its result; no request is issued and no
RefreshAll is performed. -/
def handleAddAccount (store : CredStore) (server username password : String) :
    AddAccountResult :=
  let r := store.insert server username password
  { store := r.1
    reply := r.2.map (fun _ => AddAccountError.singleAccountPerServer)
    requests := []
    refreshed := false }

/-- Subscription::build_auth_url with the fixed topic stats, for a base URL
without trailing slash: two path segments are appended. -/
def build_auth_url_stats (server : String) : String :=
  server ++ "/stats/auth"

/-- Modelled from the spec: the AddAccount flow the spec describes (issue an
authenticated GET to server/stats/auth, insert only on HTTP 2xx, then
RefreshAll). This flow is absent from NtfyActor (it exists only in the
legacy capnp coordinator in system_client.rs, which the application does
not start); the definition follows the spec's words and is compared against
handleAddAccount, which follows the source. probeStatus is the HTTP status
the server returns for the probe. -/
def specAddAccount (probeStatus : Nat) (store : CredStore)
    (server username password : String) : AddAccountResult :=
  let probe : ProbeRequest := ⟨build_auth_url_stats server, some (username, password)⟩
  if 200 ≤ probeStatus ∧ probeStatus ≤ 299 then
    let r := store.insert server username password
    { store := r.1
      reply := r.2.map (fun _ => AddAccountError.singleAccountPerServer)
      requests := [probe]
      refreshed := r.2.isNone }
  else
    { store := store
      reply := some (.probeFailed probeStatus)
      requests := [probe]
      refreshed := false }

/-! ## Helper lemmas -/

/-- Each line processed leaves the since cursor no smaller. -/
theorem processLine_since_le (since : Nat) (l : Line) :
    since ≤ (processLine since l).1 := by
  unfold processLine
  cases l.parseMin with
  | none => simp
  | some mm =>
    cases l.parseEvent with
    | none => simp [Nat.le_max_right]
    | some ev => cases ev <;> simp [Nat.le_max_right]

/-- The inner loop never decreases the since cursor. -/
theorem recvAndForward_since_le (since : Nat) (lines : List Line) :
    since ≤ (recvAndForward since lines).1 := by
  induction lines generalizing since with
  | nil => simp [recvAndForward]
  | cons l ls ih =>
    have h := processLine_since_le since l
    unfold recvAndForward
    rcases hp : processLine since l with ⟨s2, res⟩
    rw [hp] at h
    cases res with
    | error e => simpa using h
    | ok m =>
      cases m with
      | none => exact Nat.le_trans h (ih s2)
      | some msg => exact Nat.le_trans h (ih s2)

/-- The supervised loop never decreases the since cursor. -/
theorem runSupervisedSince_le (since : Nat) (conns : List (List Line)) :
    since ≤ runSupervisedSince since conns := by
  induction conns generalizing since with
  | nil => simp [runSupervisedSince]
  | cons c rest ih =>
    exact Nat.le_trans (recvAndForward_since_le since c) (ih _)

/-! ## C5 -/

/-- C5. For every attempt index i, next_delay() returns a duration in
[min, min(max, (1 shifted left by i) * multiplier)] seconds, where the
uniform draw ranges over [min, (1 shifted left by i) * multiplier] and the
result is clamped to [min, max]; wait() sleeps that delay and increments i.
The draw is supplied as the sample argument, constrained to the inclusive
gen_range interval. -/
theorem C5_retry_delay_bounds (w : WaitExponentialRandom) (sample : Nat)
    (hminmax : w.min ≤ w.max)
    (hlo : w.min ≤ sample) (hhi : sample ≤ sampleUpperBound w) :
    w.min ≤ next_delay w sample ∧
    next_delay w sample ≤ min w.max (sampleUpperBound w) ∧
    wait w sample = (next_delay w sample, { w with i := w.i + 1 }) := by
  unfold next_delay wait
  refine ⟨?_, ?_, rfl⟩ <;> omega

/-- Witness for C5 at the listener's configuration (min 1 s, max 300 s,
multiplier 1) on attempt index 3 with draw 5. -/
theorem C5_retry_delay_bounds_witness :
    ((1 : Nat) ≤ 300 ∧ (1 : Nat) ≤ 5 ∧
      5 ≤ sampleUpperBound ⟨1, 300, 3, 1⟩) ∧
    (1 ≤ next_delay ⟨1, 300, 3, 1⟩ 5 ∧
      next_delay ⟨1, 300, 3, 1⟩ 5 ≤ min 300 (sampleUpperBound ⟨1, 300, 3, 1⟩) ∧
      wait ⟨1, 300, 3, 1⟩ 5 = (next_delay ⟨1, 300, 3, 1⟩ 5, ⟨1, 300, 4, 1⟩)) :=
  ⟨⟨by decide, by decide, by decide⟩,
    C5_retry_delay_bounds ⟨1, 300, 3, 1⟩ 5 (by decide) (by decide) (by decide)⟩

/-! ## C2 -/

/-- C2. In the inner loop, a line whose MinMessage parse succeeds sets since
to max(since, min_msg.time) (even when the subsequent full parse fails); a
line whose MinMessage parse fails leaves since unchanged; consequently the
since cursor is monotonically non-decreasing over any run of the inner loop
and across all reconnects of a single listener. -/
theorem C2_since_monotone :
    (∀ (since : Nat) (l : Line) (mm : MinMessage), l.parseMin = some mm →
      (processLine since l).1 = Nat.max since mm.time) ∧
    (∀ (since : Nat) (l : Line), l.parseMin = none →
      (processLine since l).1 = since) ∧
    (∀ (since : Nat) (lines : List Line),
      since ≤ (recvAndForward since lines).1) ∧
    (∀ (since : Nat) (conns : List (List Line)),
      since ≤ runSupervisedSince since conns) := by
  refine ⟨?_, ?_, recvAndForward_since_le, runSupervisedSince_le⟩
  · intro since l mm h
    unfold processLine
    rw [h]
    cases hev : l.parseEvent with
    | none => simp [Nat.max_comm]
    | some ev => cases ev <;> simp [Nat.max_comm]
  · intro since l h
    unfold processLine
    rw [h]

/-- Witness for C2: a parsing line with time 7 against cursor 5, a
non-parsing line, a two-line run, and a two-connection supervised run. -/
theorem C2_since_monotone_witness :
    (processLine 5 ⟨"good", some ⟨"i", "t", 7⟩, none⟩).1 = Nat.max 5 7 ∧
    (processLine 5 ⟨"bad", none, none⟩).1 = 5 ∧
    5 ≤ (recvAndForward 5 [⟨"good", some ⟨"i", "t", 7⟩, none⟩, ⟨"bad", none, none⟩]).1 ∧
    5 ≤ runSupervisedSince 5 [[⟨"good", some ⟨"i", "t", 7⟩, none⟩], [⟨"bad", none, none⟩]] :=
  ⟨C2_since_monotone.1 5 ⟨"good", some ⟨"i", "t", 7⟩, none⟩ ⟨"i", "t", 7⟩ rfl,
    C2_since_monotone.2.1 5 ⟨"bad", none, none⟩ rfl,
    C2_since_monotone.2.2.1 5 _,
    C2_since_monotone.2.2.2 5 _⟩

/-! ## C1 -/

/-- C1. For every ListenerEvent::Message handled by the Subscription actor:
when insert_message returns DuplicateMessage, no notification is sent and
nothing is fanned out; when insert_message returns any other error, the
message is still fanned out as one event and, when the model is not muted,
one notification is still sent. -/
theorem C1_insert_error_disposition (emojiMap : String → Option String)
    (ins : Except Error Db) (db : Db) (model : Subscription) (msg : Msg) :
    (ins = .error .DuplicateMessage →
      handleMsgEventWith emojiMap ins db model msg = ⟨db, [], []⟩) ∧
    (∀ e : Error, ins = .error e → e ≠ .DuplicateMessage →
      (handleMsgEventWith emojiMap ins db model msg).fanout = [.message msg] ∧
      (model.muted = false →
        (handleMsgEventWith emojiMap ins db model msg).notifications =
          [buildNotification emojiMap model msg])) := by
  constructor
  · intro h
    subst h
    simp [handleMsgEventWith, alreadyStoredOf]
  · intro e h hne
    subst h
    have hstored : alreadyStoredOf (Except.error e : Except Error Db) = false := by
      cases e <;> simp_all [alreadyStoredOf]
    constructor
    · simp [handleMsgEventWith, hstored]
    · intro hm
      simp [handleMsgEventWith, hstored, hm]

/-- Witness for C1: a duplicate outcome and a distinct Db error outcome on
an unmuted model. -/
theorem C1_insert_error_disposition_witness :
    (handleMsgEventWith (fun _ => none) (.error .DuplicateMessage) ⟨[], [], []⟩
        ⟨"s", "t", "", false, false, false, none, 0⟩
        ⟨"A", "t", some "hi", 10, none, [], none, none, none, none, none, none, none, []⟩ =
      ⟨⟨[], [], []⟩, [], []⟩) ∧
    ((handleMsgEventWith (fun _ => none) (.error (.Db 7)) ⟨[], [], []⟩
        ⟨"s", "t", "", false, false, false, none, 0⟩
        ⟨"A", "t", some "hi", 10, none, [], none, none, none, none, none, none, none, []⟩).fanout =
      [.message ⟨"A", "t", some "hi", 10, none, [], none, none, none, none, none, none, none, []⟩]) :=
  ⟨(C1_insert_error_disposition (fun _ => none) (.error .DuplicateMessage) ⟨[], [], []⟩
      ⟨"s", "t", "", false, false, false, none, 0⟩
      ⟨"A", "t", some "hi", 10, none, [], none, none, none, none, none, none, none, []⟩).1 rfl,
    ((C1_insert_error_disposition (fun _ => none) (.error (.Db 7)) ⟨[], [], []⟩
      ⟨"s", "t", "", false, false, false, none, 0⟩
      ⟨"A", "t", some "hi", 10, none, [], none, none, none, none, none, none, none, []⟩).2
      (.Db 7) rfl (by decide)).1⟩

/-! ## C4 -/

/-- A successful insert_message leaves the new row in the message table,
keyed by the id resolved for the endpoint. -/
theorem insert_message_ok_mem (db : Db) (server : String) (blob : Blob) (db' : Db)
    (h : db.insert_message server blob = .ok db') :
    MsgRow.mk (db.get_or_insert_server server).1 blob ∈ db'.messages := by
  unfold Db.insert_message at h
  cases hid : blob.idField with
  | none =>
    rw [hid] at h
    dsimp only at h
    injection h with h
    subst h
    simp
  | some mid =>
    rw [hid] at h
    dsimp only at h
    split at h
    · exact absurd h (by simp)
    · injection h with h
      subst h
      simp

/-- C4. A non-duplicate message on a muted subscription is stored in the
database and fanned out to observers as one ListenerEvent::Message, while
zero notifications are emitted on the sink. -/
theorem C4_muted_stores_without_notification (emojiMap : String → Option String)
    (db db' : Db) (model : Subscription) (msg : Msg)
    (hm : model.muted = true)
    (hins : db.insert_message model.server (Blob.ofMsg msg) = .ok db') :
    handle_msg_event emojiMap db model msg = ⟨db', [], [.message msg]⟩ ∧
    MsgRow.mk (db.get_or_insert_server model.server).1 (Blob.ofMsg msg) ∈ db'.messages := by
  refine ⟨?_, insert_message_ok_mem db model.server (Blob.ofMsg msg) db' hins⟩
  unfold handle_msg_event
  rw [hins]
  simp [handleMsgEventWith, alreadyStoredOf, hm]

/-- Witness for C4: a muted model over the empty database; the message is
stored under the freshly inserted server row and fanned out, with no
notification. -/
theorem C4_muted_stores_without_notification_witness :
    (Db.insert_message ⟨[], [], []⟩ "s"
        (Blob.ofMsg ⟨"A", "t", some "hi", 10, none, [], none, none, none, none, none, none, none, []⟩) =
      .ok ⟨[⟨1, "s"⟩], [],
        [⟨1, Blob.ofMsg ⟨"A", "t", some "hi", 10, none, [], none, none, none, none, none, none, none, []⟩⟩]⟩) ∧
    (handle_msg_event (fun _ => none) ⟨[], [], []⟩
        ⟨"s", "t", "", true, false, false, none, 0⟩
        ⟨"A", "t", some "hi", 10, none, [], none, none, none, none, none, none, none, []⟩ =
      ⟨⟨[⟨1, "s"⟩], [],
        [⟨1, Blob.ofMsg ⟨"A", "t", some "hi", 10, none, [], none, none, none, none, none, none, none, []⟩⟩]⟩,
        [], [.message ⟨"A", "t", some "hi", 10, none, [], none, none, none, none, none, none, none, []⟩]⟩ ∧
      MsgRow.mk (Db.get_or_insert_server ⟨[], [], []⟩ "s").1
          (Blob.ofMsg ⟨"A", "t", some "hi", 10, none, [], none, none, none, none, none, none, none, []⟩) ∈
        (⟨[⟨1, "s"⟩], [],
          [⟨1, Blob.ofMsg ⟨"A", "t", some "hi", 10, none, [], none, none, none, none, none, none, none, []⟩⟩]⟩ : Db).messages) :=
  ⟨by decide,
    C4_muted_stores_without_notification (fun _ => none) ⟨[], [], []⟩ _
      ⟨"s", "t", "", true, false, false, none, 0⟩
      ⟨"A", "t", some "hi", 10, none, [], none, none, none, none, none, none, none, []⟩
      rfl (by decide)⟩

/-! ## C9 -/

/-- Putting into the map when some entry holds the key rewrites that entry. -/
theorem CredStore.get_map_put (s : String) (c : Credential) :
    ∀ store : CredStore, store.any (fun q => q.1 = s) = true →
      CredStore.get (store.map (fun q => if q.1 = s then (q.1, c) else q)) s = some c := by
  intro store
  induction store with
  | nil => simp
  | cons a rest ih =>
    intro hany
    by_cases h : a.1 = s
    · simp [CredStore.get, h]
    · have hrest : rest.any (fun q => q.1 = s) = true := by
        simpa [h] using hany
      simpa [CredStore.get, h] using ih hrest

/-- Putting into the map when no entry holds the key appends a fresh entry. -/
theorem CredStore.get_append_put (s : String) (c : Credential) :
    ∀ store : CredStore, store.any (fun q => q.1 = s) = false →
      CredStore.get (store ++ [(s, c)]) s = some c := by
  intro store
  induction store with
  | nil => simp [CredStore.get]
  | cons a rest ih =>
    intro hany
    simp only [List.any_cons, Bool.or_eq_false_iff] at hany
    have h : ¬a.1 = s := by simpa using hany.1
    simpa [CredStore.get, h] using ih hany.2

/-- After a put, lookup of the written server yields the written credential. -/
theorem CredStore.get_put (store : CredStore) (s : String) (c : Credential) :
    CredStore.get (CredStore.put store s c) s = some c := by
  unfold CredStore.put
  by_cases hany : store.any (fun q => q.1 = s)
  · rw [if_pos hany]
    exact CredStore.get_map_put s c store hany
  · rw [if_neg hany]
    have hf : store.any (fun q => q.1 = s) = false := by
      cases h : store.any (fun q => q.1 = s)
      · rfl
      · exact absurd h hany
    exact CredStore.get_append_put s c store hf

/-- The insert outcome: an error exactly when another username holds the
server, the store untouched on error, and the new credential readable on
success. -/
theorem CredStore.insert_spec (store : CredStore) (s u p : String) :
    ((CredStore.insert store s u p).2 = some .singleAccountPerServer ↔
      ∃ c, CredStore.get store s = some c ∧ c.username ≠ u) ∧
    ((CredStore.insert store s u p).2 = some .singleAccountPerServer →
      (CredStore.insert store s u p).1 = store) ∧
    ((CredStore.insert store s u p).2 = none →
      CredStore.get (CredStore.insert store s u p).1 s = some ⟨u, p⟩) := by
  unfold CredStore.insert
  cases hget : CredStore.get store s with
  | none =>
    refine ⟨?_, ?_, ?_⟩ <;> simp [CredStore.get_put]
  | some c =>
    by_cases hu : c.username = u
    · refine ⟨?_, ?_, ?_⟩ <;> simp [hu, CredStore.get_put]
    · refine ⟨?_, ?_, ?_⟩ <;> simp [hu, CredStore.get_put]

/-- C9. Credentials::insert fails exactly when a credential for the server
exists under a different username, in which case the cached map is
unchanged; insertion with the same or no existing username succeeds as an
upsert, after which get(server) yields the new username and password. -/
theorem C9_insert_single_account_per_server (store : CredStore) (s u p : String) :
    ((CredStore.insert store s u p).2 = some .singleAccountPerServer ↔
      ∃ c, CredStore.get store s = some c ∧ c.username ≠ u) ∧
    ((CredStore.insert store s u p).2 = some .singleAccountPerServer →
      (CredStore.insert store s u p).1 = store) ∧
    ((CredStore.insert store s u p).2 = none →
      CredStore.get (CredStore.insert store s u p).1 s = some ⟨u, p⟩) :=
  CredStore.insert_spec store s u p

/-- Witness for C9: on a store holding bob at srv, inserting alice fails and
leaves the store unchanged, while re-inserting bob with a new password is an
upsert readable afterwards. -/
theorem C9_insert_single_account_per_server_witness :
    (CredStore.insert [("srv", ⟨"bob", "x"⟩)] "srv" "alice" "p").2 =
      some .singleAccountPerServer ∧
    (CredStore.insert [("srv", ⟨"bob", "x"⟩)] "srv" "alice" "p").1 =
      [("srv", ⟨"bob", "x"⟩)] ∧
    CredStore.get (CredStore.insert [("srv", ⟨"bob", "x"⟩)] "srv" "bob" "p2").1 "srv" =
      some ⟨"bob", "p2"⟩ :=
  have h1 := (C9_insert_single_account_per_server [("srv", ⟨"bob", "x"⟩)] "srv" "alice" "p").1.mpr
    ⟨⟨"bob", "x"⟩, by decide, by decide⟩
  ⟨h1,
    (C9_insert_single_account_per_server [("srv", ⟨"bob", "x"⟩)] "srv" "alice" "p").2.1 h1,
    (C9_insert_single_account_per_server [("srv", ⟨"bob", "x"⟩)] "srv" "bob" "p2").2.2 (by decide)⟩

/-! ## C8 -/

/-- Counterexample to C8: handling AddAccount issues no HTTP request at all
(in particular no authenticated GET to server/stats/auth), inserts the
credential without any 2xx probe outcome, and performs no RefreshAll; the
spec-modelled flow on the same input with a 401 probe answer would have
issued the probe and refused the insert. -/
theorem C8_no_probe_counterexample :
    (handleAddAccount [] "http://example.com" "alice" "pw").requests = [] ∧
    (handleAddAccount [] "http://example.com" "alice" "pw").refreshed = false ∧
    (handleAddAccount [] "http://example.com" "alice" "pw").store =
      [("http://example.com", ⟨"alice", "pw"⟩)] ∧
    (handleAddAccount [] "http://example.com" "alice" "pw").reply = none ∧
    (specAddAccount 401 [] "http://example.com" "alice" "pw").requests =
      [⟨"http://example.com/stats/auth", some ("alice", "pw")⟩] ∧
    (specAddAccount 401 [] "http://example.com" "alice" "pw").store = [] ∧
    (specAddAccount 401 [] "http://example.com" "alice" "pw").reply =
      some (.probeFailed 401) := by
  decide

/-- C8 as amended. AddAccount(server, username, password) performs no auth
probe and no RefreshAll: it issues zero HTTP requests, inserts the
credential directly into the store subject only to the
single-account-per-server rule, and replies with the insert result; on a
successful reply the credential is readable from the store. -/
theorem C8_add_account_without_probe (store : CredStore) (server username password : String) :
    (handleAddAccount store server username password).requests = [] ∧
    (handleAddAccount store server username password).refreshed = false ∧
    (handleAddAccount store server username password).store =
      (CredStore.insert store server username password).1 ∧
    ((handleAddAccount store server username password).reply = none ↔
      (CredStore.insert store server username password).2 = none) ∧
    ((handleAddAccount store server username password).reply = none →
      CredStore.get (handleAddAccount store server username password).store server =
        some ⟨username, password⟩) := by
  refine ⟨rfl, rfl, rfl, ?_, ?_⟩
  · simp [handleAddAccount]
  · intro hnone
    have h2 : (CredStore.insert store server username password).2 = none := by
      simpa [handleAddAccount] using hnone
    exact (CredStore.insert_spec store server username password).2.2 h2

/-- Witness for C8's amended statement on the empty store. -/
theorem C8_add_account_without_probe_witness :
    (handleAddAccount [] "srv" "u" "p").requests = [] ∧
    (handleAddAccount [] "srv" "u" "p").refreshed = false ∧
    (handleAddAccount [] "srv" "u" "p").store = (CredStore.insert [] "srv" "u" "p").1 ∧
    ((handleAddAccount [] "srv" "u" "p").reply = none ↔
      (CredStore.insert [] "srv" "u" "p").2 = none) ∧
    ((handleAddAccount [] "srv" "u" "p").reply = none →
      CredStore.get (handleAddAccount [] "srv" "u" "p").store "srv" = some ⟨"u", "p"⟩) :=
  C8_add_account_without_probe [] "srv" "u" "p"

/-! ## C10 -/

/-- C10. list_messages returns rows only for (server, topic) pairs backed by
a subscription row: without one, the result is empty no matter what the
message table holds. -/
theorem C10_list_messages_requires_subscription (db : Db) (server topic : String)
    (since : Nat)
    (h : ∀ sub ∈ db.subscriptions, ∀ s ∈ db.servers,
      s.endpoint = server → sub.server = s.id → sub.topic ≠ topic) :
    Db.list_messages db server topic since = [] := by
  unfold Db.list_messages
  have hf : db.messages.filter (fun r => r.inListing db server topic since) = [] := by
    rw [List.filter_eq_nil_iff]
    intro r _
    unfold MsgRow.inListing
    simp only [List.any_eq_true, Bool.and_eq_true, decide_eq_true_eq, not_exists]
    rintro s ⟨hs, he, sub, hsub, hh⟩
    have hst : sub.topic = topic := by
      have h3 : r.data.topicField = some sub.topic := hh.1.1.2
      have h4 : r.data.topicField = some topic := hh.1.2
      rw [h3] at h4
      exact Option.some.inj h4
    exact h sub hsub s hs he hh.1.1.1.1 hst
  rw [hf]
  simp [sortByTimeKey]

/-- Witness for C10: a database holding a matching message row but no
subscription row yields the empty listing. -/
theorem C10_list_messages_requires_subscription_witness :
    (∀ sub ∈ (⟨[⟨1, "s"⟩], [],
        [⟨1, Blob.ofMsg ⟨"A", "t", some "hi", 10, none, [], none, none, none, none, none, none, none, []⟩⟩]⟩ : Db).subscriptions,
      ∀ s ∈ (⟨[⟨1, "s"⟩], [],
        [⟨1, Blob.ofMsg ⟨"A", "t", some "hi", 10, none, [], none, none, none, none, none, none, none, []⟩⟩]⟩ : Db).servers,
      s.endpoint = "s" → sub.server = s.id → sub.topic ≠ "t") ∧
    Db.list_messages ⟨[⟨1, "s"⟩], [],
        [⟨1, Blob.ofMsg ⟨"A", "t", some "hi", 10, none, [], none, none, none, none, none, none, none, []⟩⟩]⟩
      "s" "t" 0 = [] :=
  ⟨by simp, C10_list_messages_requires_subscription _ "s" "t" 0 (by simp)⟩

/-! ## C6 -/

/-- Counterexample to C6: the one-character topic holding the letter e with
acute accent (U+00E9) is accepted by validate_topic (the regex crate's \w is
the Unicode word class), yet it does not match the ASCII regex
[caret][A-Za-z0-9_\-]{1,64}$ stated by the claim. -/
theorem C6_unicode_topic_counterexample :
    isOkE (validate_topic "é") = true ∧ specTopicReMatch "é" = false := by
  decide

/-- On characters below U+0080 the source's word-or-hyphen class coincides
with the ASCII class of the spec. -/
theorem asciiWordOrHyphen_eq (c : Char) (hc : c.toNat < 128) :
    (isLatin1WordChar c || c = '-') = (c.isAlphanum || c = '_' || c = '-') := by
  unfold isLatin1WordChar
  have h1 : decide (c.toNat = 0xAA) = false := decide_eq_false (by omega)
  have h2 : decide (c.toNat = 0xB5) = false := decide_eq_false (by omega)
  have h3 : decide (c.toNat = 0xBA) = false := decide_eq_false (by omega)
  have h4 : decide (0xC0 ≤ c.toNat) = false := decide_eq_false (by omega)
  have h5 : decide (0xD8 ≤ c.toNat) = false := decide_eq_false (by omega)
  have h6 : decide (0xF8 ≤ c.toNat) = false := decide_eq_false (by omega)
  rw [h1, h2, h3, h4, h5, h6]
  simp

/-- C6 as amended. validate_topic accepts exactly the strings of 1 to 64
characters made of \w-or-hyphen characters with \w the Unicode word class;
restricted to ASCII strings this coincides with the spec's regex
[caret][A-Za-z0-9_\-]{1,64}$, while non-ASCII word characters (such as
U+00E9) are additionally accepted. -/
theorem C6_topic_ascii_iff (s : String) (h : ∀ c ∈ s.data, c.toNat < 128) :
    isOkE (validate_topic s) = true ↔ specTopicReMatch s = true := by
  have hok : isOkE (validate_topic s) = topicReMatch s := by
    unfold validate_topic
    by_cases ht : topicReMatch s <;> simp [ht, isOkE]
  rw [hok]
  unfold topicReMatch specTopicReMatch
  simp only [Bool.and_eq_true, List.all_eq_true]
  constructor
  · rintro ⟨hlen, hall⟩
    refine ⟨hlen, fun c hc => ?_⟩
    rw [← asciiWordOrHyphen_eq c (h c hc)]
    exact hall c hc
  · rintro ⟨hlen, hall⟩
    refine ⟨hlen, fun c hc => ?_⟩
    rw [asciiWordOrHyphen_eq c (h c hc)]
    exact hall c hc

/-- Witness for C6's amended statement on an ASCII topic. -/
theorem C6_topic_ascii_iff_witness :
    (∀ c ∈ ("my-topic_1" : String).data, c.toNat < 128) ∧
    (isOkE (validate_topic "my-topic_1") = true ↔ specTopicReMatch "my-topic_1" = true) :=
  ⟨by decide, C6_topic_ascii_iff "my-topic_1" (by decide)⟩

/-! ## C7 -/

/-- Resolving a server id never touches the subscription table. -/
theorem get_or_insert_server_subscriptions (db : Db) (e : String) :
    (db.get_or_insert_server e).2.subscriptions = db.subscriptions := by
  unfold Db.get_or_insert_server
  cases db.serverId e <;> simp

/-- A successful update_subscription rewrites exactly the SET-clause columns
of the matching rows and leaves every other column and row alone. -/
theorem update_subscription_ok_rows (db : Db) (sub : Subscription)
    (h : (Db.update_subscription db sub).2 = .ok ()) :
    (Db.update_subscription db sub).1.subscriptions =
      db.subscriptions.map (fun row =>
        if row.server = (db.get_or_insert_server sub.server).1 && row.topic = sub.topic then
          { row with
            display_name := sub.display_name
            reserved := sub.reserved
            muted := sub.muted
            archived := sub.archived
            read_until := sub.read_until }
        else row) := by
  unfold Db.update_subscription at h ⊢
  dsimp only at h ⊢
  by_cases hany : ((db.get_or_insert_server sub.server).2.subscriptions.any
      (fun r => r.server = (db.get_or_insert_server sub.server).1 && r.topic = sub.topic)) = true
  · rw [if_pos hany]
    dsimp only
    rw [get_or_insert_server_subscriptions]
  · rw [if_neg hany] at h
    exact absurd h (by simp)

/-- A successful UpdateInfo adopts the merged model and the updated database. -/
theorem handleUpdateInfo_ok (db : Db) (current new : Subscription)
    (h : (handleUpdateInfo db current new).reply = .ok ()) :
    (Db.update_subscription db (mergeModels current new)).2 = .ok () ∧
    (handleUpdateInfo db current new).model = mergeModels current new ∧
    (handleUpdateInfo db current new).db =
      (Db.update_subscription db (mergeModels current new)).1 := by
  unfold handleUpdateInfo at h ⊢
  dsimp only at h ⊢
  cases hres : (Db.update_subscription db (mergeModels current new)).2 with
  | ok u =>
    cases u
    exact ⟨rfl, rfl, rfl⟩
  | error e =>
    rw [hres] at h
    simp at h

/-- Counterexample to C7: an UpdateInfo carrying a new symbolic_icon
succeeds, the in-memory model takes the new icon, yet the persisted
subscription row keeps its old icon, because update_subscription's SET
clause omits the symbolic_icon column. -/
theorem C7_symbolic_icon_counterexample :
    (handleUpdateInfo ⟨[⟨1, "s"⟩], [⟨1, "t", "old", false, false, false, none, 0⟩], []⟩
        ⟨"s", "t", "old", false, false, false, none, 0⟩
        ⟨"x", "y", "newname", true, true, true, some "bell", 42⟩).reply = .ok () ∧
    (handleUpdateInfo ⟨[⟨1, "s"⟩], [⟨1, "t", "old", false, false, false, none, 0⟩], []⟩
        ⟨"s", "t", "old", false, false, false, none, 0⟩
        ⟨"x", "y", "newname", true, true, true, some "bell", 42⟩).model.symbolic_icon =
      some "bell" ∧
    (handleUpdateInfo ⟨[⟨1, "s"⟩], [⟨1, "t", "old", false, false, false, none, 0⟩], []⟩
        ⟨"s", "t", "old", false, false, false, none, 0⟩
        ⟨"x", "y", "newname", true, true, true, some "bell", 42⟩).db.subscriptions =
      [⟨1, "t", "newname", true, true, true, none, 42⟩] := by
  decide

/-- C7 as amended. A successful UpdateInfo(new) keeps server and topic from
the current model and takes the new display_name, muted, archived, reserved,
read_until and symbolic_icon in the in-memory model; the merged model is
passed to update_subscription, which persists display_name, reserved, muted,
archived and read_until on the matching rows but does not write
symbolic_icon, so every stored row keeps its previous symbolic_icon. -/
theorem C7_update_info_merge (db : Db) (current new : Subscription)
    (h : (handleUpdateInfo db current new).reply = .ok ()) :
    (handleUpdateInfo db current new).model = mergeModels current new ∧
    (mergeModels current new).server = current.server ∧
    (mergeModels current new).topic = current.topic ∧
    (mergeModels current new).display_name = new.display_name ∧
    (mergeModels current new).muted = new.muted ∧
    (mergeModels current new).archived = new.archived ∧
    (mergeModels current new).reserved = new.reserved ∧
    (mergeModels current new).read_until = new.read_until ∧
    (mergeModels current new).symbolic_icon = new.symbolic_icon ∧
    (handleUpdateInfo db current new).db.subscriptions =
      db.subscriptions.map (fun row =>
        if row.server = (db.get_or_insert_server current.server).1 &&
            row.topic = current.topic then
          { row with
            display_name := new.display_name
            reserved := new.reserved
            muted := new.muted
            archived := new.archived
            read_until := new.read_until }
        else row) ∧
    (handleUpdateInfo db current new).db.subscriptions.map (fun row => row.symbolic_icon) =
      db.subscriptions.map (fun row => row.symbolic_icon) := by
  obtain ⟨hok, hmodel, hdb⟩ := handleUpdateInfo_ok db current new h
  have hrows := update_subscription_ok_rows db (mergeModels current new) hok
  have hsubs : (handleUpdateInfo db current new).db.subscriptions =
      db.subscriptions.map (fun row =>
        if row.server = (db.get_or_insert_server current.server).1 &&
            row.topic = current.topic then
          { row with
            display_name := new.display_name
            reserved := new.reserved
            muted := new.muted
            archived := new.archived
            read_until := new.read_until }
        else row) := by
    rw [hdb, hrows]
    rfl
  refine ⟨hmodel, rfl, rfl, rfl, rfl, rfl, rfl, rfl, rfl, hsubs, ?_⟩
  rw [hsubs, List.map_map]
  apply List.map_congr_left
  intro row _
  dsimp only [Function.comp]
  split <;> rfl

/-- Witness for C7's amended statement on a one-row database. -/
theorem C7_update_info_merge_witness :
    (handleUpdateInfo ⟨[⟨1, "s"⟩], [⟨1, "t", "old", false, false, false, some "prev", 7⟩], []⟩
        ⟨"s", "t", "old", false, false, false, some "prev", 7⟩
        ⟨"x", "y", "n", true, false, true, some "next", 9⟩).reply = .ok () ∧
    ((handleUpdateInfo ⟨[⟨1, "s"⟩], [⟨1, "t", "old", false, false, false, some "prev", 7⟩], []⟩
        ⟨"s", "t", "old", false, false, false, some "prev", 7⟩
        ⟨"x", "y", "n", true, false, true, some "next", 9⟩).model =
      mergeModels ⟨"s", "t", "old", false, false, false, some "prev", 7⟩
        ⟨"x", "y", "n", true, false, true, some "next", 9⟩) ∧
    ((handleUpdateInfo ⟨[⟨1, "s"⟩], [⟨1, "t", "old", false, false, false, some "prev", 7⟩], []⟩
        ⟨"s", "t", "old", false, false, false, some "prev", 7⟩
        ⟨"x", "y", "n", true, false, true, some "next", 9⟩).db.subscriptions.map
          (fun row => row.symbolic_icon) =
      ([⟨1, "t", "old", false, false, false, some "prev", 7⟩] : List SubRow).map
          (fun row => row.symbolic_icon)) :=
  have happ := C7_update_info_merge
    ⟨[⟨1, "s"⟩], [⟨1, "t", "old", false, false, false, some "prev", 7⟩], []⟩
    ⟨"s", "t", "old", false, false, false, some "prev", 7⟩
    ⟨"x", "y", "n", true, false, true, some "next", 9⟩ (by decide)
  ⟨by decide, happ.1, happ.2.2.2.2.2.2.2.2.2.2⟩

/-! ## C3 -/

/-- The message rows persisted for a (server-id, topic) pair. -/
def relevantRows (db : Db) (sid : Nat) (topic : String) : List MsgRow :=
  db.messages.filter (fun r => r.server = sid && r.data.topicField = some topic)

/-- Under a well-formed database (endpoint resolved, unique endpoint row, a
subscription row present, message rows serde round-trips), the listing
condition of list_messages coincides with membership in the pair's rows. -/
theorem inListing_eq_relevant (db : Db) (model : Subscription) (sid : Nat)
    (hs : db.serverId model.server = some sid)
    (huniq : ∀ s ∈ db.servers, s.endpoint = model.server → s.id = sid)
    (hsub : ∃ sub ∈ db.subscriptions, sub.server = sid ∧ sub.topic = model.topic)
    (hwf : ∀ r ∈ db.messages, r.server = sid → r.data.topicField = some model.topic →
      ∃ m, r.data = Blob.ofMsg m) :
    db.messages.filter (fun r => r.inListing db model.server model.topic 0) =
      relevantRows db sid model.topic := by
  unfold relevantRows
  apply List.filter_congr
  intro r hr
  obtain ⟨srow, hfind, hsid⟩ := Option.map_eq_some'.mp hs
  have hsmem : srow ∈ db.servers := List.mem_of_find?_eq_some hfind
  have hsend : srow.endpoint = model.server := by
    have := List.find?_some hfind
    simpa using this
  obtain ⟨sub, hsubmem, hsubserver, hsubtopic⟩ := hsub
  by_cases hcond : (r.server = sid && r.data.topicField = some model.topic) = true
  · simp only [Bool.and_eq_true, decide_eq_true_eq] at hcond
    obtain ⟨hserv, htf⟩ := hcond
    obtain ⟨m, hdata⟩ := hwf r hr hserv htf
    have hlist : r.inListing db model.server model.topic 0 = true := by
      unfold MsgRow.inListing
      simp only [List.any_eq_true, Bool.and_eq_true, decide_eq_true_eq]
      refine ⟨srow, hsmem, hsend, sub, hsubmem,
        ⟨⟨⟨⟨by rw [hsubserver, hsid], by rw [hserv, hsubserver]⟩, ?_⟩, ?_⟩, ?_⟩⟩
      · rw [htf, hsubtopic]
      · exact htf
      · rw [hdata]
        show decide (0 ≤ m.time) = true
        simp
    rw [hlist]
    symm
    simp only [Bool.and_eq_true, decide_eq_true_eq]
    exact ⟨hserv, htf⟩
  · have hlist : r.inListing db model.server model.topic 0 = false := by
      cases hl : r.inListing db model.server model.topic 0
      · rfl
      · exfalso
        unfold MsgRow.inListing at hl
        simp only [List.any_eq_true, Bool.and_eq_true, decide_eq_true_eq] at hl
        obtain ⟨s, hsm, hse, sub2, _, hh⟩ := hl
        have hssid : s.id = sid := huniq s hsm hse
        apply hcond
        simp only [Bool.and_eq_true, decide_eq_true_eq]
        have h3 : r.data.topicField = some sub2.topic := hh.1.1.2
        have h4 : r.data.topicField = some model.topic := hh.1.2
        exact ⟨by rw [hh.1.1.1.2, hh.1.1.1.1, hssid], h4⟩
    rw [hlist]
    cases hcb : (r.server = sid && r.data.topicField = some model.topic) with
    | false => rfl
    | true => exact absurd hcb hcond

/-- Rows whose blobs are serde round-trips are reconstructed exactly by
parsing and re-serialising. -/
theorem filterMap_parse_reconstruct (sid : Nat) :
    ∀ l : List MsgRow,
      (∀ r ∈ l, r.server = sid ∧ ∃ m, r.data = Blob.ofMsg m) →
      (l.filterMap (fun r => r.data.parse)).map
        (fun m => MsgRow.mk sid (Blob.ofMsg m)) = l := by
  intro l
  induction l with
  | nil => simp
  | cons r rest ih =>
    intro hall
    obtain ⟨hserv, m, hdata⟩ := hall r (by simp)
    have hrest : ∀ x ∈ rest, x.server = sid ∧ ∃ m, x.data = Blob.ofMsg m :=
      fun x hx => hall x (by simp [hx])
    have hparse : r.data.parse = some m := by rw [hdata]; rfl
    simp only [List.filterMap_cons, hparse, List.map_cons, ih hrest]
    congr 1
    cases r with
    | mk server data =>
      simp only at hserv hdata
      rw [hserv, hdata]

/-- C3. For a subscription whose (server, topic) pair is backed by a
subscription row and whose persisted blobs are serde round-trips, attach()
replays exactly the pair's persisted messages as Message events in ascending
time order, followed by exactly one ConnectionStateChanged carrying the
listener's current state, and nothing else. -/
theorem C3_attach_replays_history (db : Db) (model : Subscription)
    (state : ConnectionState) (sid : Nat)
    (hs : db.serverId model.server = some sid)
    (huniq : ∀ s ∈ db.servers, s.endpoint = model.server → s.id = sid)
    (hsub : ∃ sub ∈ db.subscriptions, sub.server = sid ∧ sub.topic = model.topic)
    (hwf : ∀ r ∈ db.messages, r.server = sid → r.data.topicField = some model.topic →
      ∃ m, r.data = Blob.ofMsg m) :
    ∃ ms : List Msg,
      attachReplay db model state =
        ms.map ListenerEvent.message ++ [ListenerEvent.connectionStateChanged state] ∧
      List.Perm (ms.map (fun m => MsgRow.mk sid (Blob.ofMsg m)))
        (relevantRows db sid model.topic) ∧
      ms.Pairwise (fun a b => a.time ≤ b.time) := by
  have hfilter := inListing_eq_relevant db model sid hs huniq hsub hwf
  have hrelmem : ∀ r ∈ relevantRows db sid model.topic,
      r.server = sid ∧ ∃ m, r.data = Blob.ofMsg m := by
    intro r hrr
    have hmem := List.mem_filter.mp hrr
    have hcond := hmem.2
    simp only [Bool.and_eq_true, decide_eq_true_eq] at hcond
    exact ⟨hcond.1, hwf r hmem.1 hcond.1 hcond.2⟩
  have hperm : List.Perm (sortByTimeKey (relevantRows db sid model.topic))
      (relevantRows db sid model.topic) :=
    List.perm_insertionSort timeLE _
  have hsortmem : ∀ r ∈ sortByTimeKey (relevantRows db sid model.topic),
      r.server = sid ∧ ∃ m, r.data = Blob.ofMsg m :=
    fun r hrr => hrelmem r (hperm.mem_iff.mp hrr)
  refine ⟨(sortByTimeKey (relevantRows db sid model.topic)).filterMap
    (fun r => r.data.parse), ?_, ?_, ?_⟩
  · unfold attachReplay Db.list_messages
    rw [hfilter, List.filterMap_map]
    rfl
  · rw [filterMap_parse_reconstruct sid _ hsortmem]
    exact hperm
  · have hsorted : List.Pairwise timeLE (sortByTimeKey (relevantRows db sid model.topic)) :=
      List.sorted_insertionSort timeLE _
    rw [← filterMap_parse_reconstruct sid _ hsortmem] at hsorted
    have := List.pairwise_map.mp hsorted
    refine this.imp ?_
    intro a b hab
    simpa [timeLE, MsgRow.timeKey, Blob.ofMsg] using hab

/-- Witness for C3: three stored messages at times 1, 2 and 3 (persisted out
of order) replay in ascending order before the single state event. -/
theorem C3_attach_replays_history_witness :
    ∃ ms : List Msg,
      attachReplay
        ⟨[⟨1, "s"⟩], [⟨1, "t", "", false, false, false, none, 0⟩],
          [⟨1, Blob.ofMsg ⟨"B", "t", some "two", 2, none, [], none, none, none, none, none, none, none, []⟩⟩,
           ⟨1, Blob.ofMsg ⟨"C", "t", some "three", 3, none, [], none, none, none, none, none, none, none, []⟩⟩,
           ⟨1, Blob.ofMsg ⟨"A", "t", some "one", 1, none, [], none, none, none, none, none, none, none, []⟩⟩]⟩
        ⟨"s", "t", "", false, false, false, none, 0⟩ .connected =
        ms.map ListenerEvent.message ++ [ListenerEvent.connectionStateChanged .connected] ∧
      List.Perm (ms.map (fun m => MsgRow.mk 1 (Blob.ofMsg m))) (relevantRows
        ⟨[⟨1, "s"⟩], [⟨1, "t", "", false, false, false, none, 0⟩],
          [⟨1, Blob.ofMsg ⟨"B", "t", some "two", 2, none, [], none, none, none, none, none, none, none, []⟩⟩,
           ⟨1, Blob.ofMsg ⟨"C", "t", some "three", 3, none, [], none, none, none, none, none, none, none, []⟩⟩,
           ⟨1, Blob.ofMsg ⟨"A", "t", some "one", 1, none, [], none, none, none, none, none, none, none, []⟩⟩]⟩
        1 "t") ∧
      ms.Pairwise (fun a b => a.time ≤ b.time) :=
  C3_attach_replays_history _ _ .connected 1 (by decide)
    (by
      intro s hs he
      simp only [List.mem_singleton] at hs
      subst hs
      rfl)
    ⟨⟨1, "t", "", false, false, false, none, 0⟩, by simp, rfl, rfl⟩
    (by
      intro r hr h1 h2
      simp only [List.mem_cons, List.not_mem_nil, or_false] at hr
      rcases hr with h | h | h <;> subst h
      · exact ⟨⟨"B", "t", some "two", 2, none, [], none, none, none, none, none, none, none, []⟩, rfl⟩
      · exact ⟨⟨"C", "t", some "three", 3, none, [], none, none, none, none, none, none, none, []⟩, rfl⟩
      · exact ⟨⟨"A", "t", some "one", 1, none, [], none, none, none, none, none, none, none, []⟩, rfl⟩)

end Notify
